import Mathlib

/-!
Verification of the SingleBrief repository: brief creation, response
bookkeeping, the relational schema constraints and row-level-security
policies, the cancellation email function, and the small parsing helpers,
shallowly embedded from the TypeScript components and the SQL migrations.
-/

namespace SingleBrief

/-! ## Recipient assembly and deduplication (NewBriefModal.tsx, handleSubmit)

The submit handler assembles a recipient list and removes duplicates with
`recipients = [...new Set(recipients)]`, which keeps the first occurrence of
each email in order.  `jsSetDedupAux` threads the set of already-seen
elements exactly as JS `Set` insertion does. -/

def jsSetDedupAux (seen : List String) : List String → List String
  | [] => []
  | x :: xs => if x ∈ seen then jsSetDedupAux seen xs else x :: jsSetDedupAux (x :: seen) xs

/-- Source `[...new Set(recipients)]` at NewBriefModal.tsx line 143. -/
def jsSetDedup (l : List String) : List String := jsSetDedupAux [] l

/-- A row of the `briefs` table, with the columns the client writes
(NewBriefModal.tsx lines 155-167; schema migration lines 104-117). -/
structure BriefRow where
  id : Nat
  title : String
  prompt : String
  recipients : List String
  total_recipients : Nat
  status : String
deriving DecidableEq

/-- A row of the `responses` table, with the columns the client writes
(NewBriefModal.tsx lines 172-176; schema migration lines 144-156). -/
structure ResponseRow where
  brief_id : Nat
  recipient_email : String
  secure_token : Nat
deriving DecidableEq

/-- Source `recipients.map(email => ({ brief_id, recipient_email, secure_token:
crypto.randomUUID() }))`: one insert per recipient, each call drawing a fresh
token from the stream `tok` (the model of `crypto.randomUUID`). -/
def attachTokens (briefId : Nat) (tok : Nat → Nat) : List String → Nat → List ResponseRow
  | [], _ => []
  | e :: es, i => ⟨briefId, e, tok i⟩ :: attachTokens briefId tok es (i + 1)

/-- Result of a successful brief creation: the inserted brief row and the
bulk-inserted response rows. -/
structure CreateResult where
  brief : BriefRow
  responses : List ResponseRow
deriving DecidableEq

/-- The database-visible effect of `handleSubmit` (NewBriefModal.tsx lines
142-182): dedup the assembled recipients, bail out with a toast when empty,
otherwise insert one brief row (status `draft`, `total_recipients` the
deduplicated length) and one response row per deduplicated recipient. -/
def createBriefResult (briefId : Nat) (title promptText : String) (raw : List String)
    (tok : Nat → Nat) : Option CreateResult :=
  if (jsSetDedup raw).length = 0 then none
  else some { brief := ⟨briefId, title, promptText, jsSetDedup raw,
                        (jsSetDedup raw).length, "draft"⟩,
              responses := attachTokens briefId tok (jsSetDedup raw) 0 }

/-! ### Lemmas about the dedup and the token attachment -/

theorem mem_jsSetDedupAux (seen l : List String) (x : String) :
    x ∈ jsSetDedupAux seen l ↔ x ∈ l ∧ x ∉ seen := by
  induction l generalizing seen with
  | nil => simp [jsSetDedupAux]
  | cons a as ih =>
    by_cases ha : a ∈ seen
    · simp only [jsSetDedupAux, if_pos ha, ih, List.mem_cons]
      constructor
      · rintro ⟨hx, hs⟩
        exact ⟨Or.inr hx, hs⟩
      · rintro ⟨hx | hx, hs⟩
        · exact absurd (hx ▸ ha) hs
        · exact ⟨hx, hs⟩
    · simp only [jsSetDedupAux, if_neg ha, List.mem_cons, ih]
      constructor
      · rintro (rfl | ⟨hx, hs⟩)
        · exact ⟨Or.inl rfl, ha⟩
        · exact ⟨Or.inr hx, fun h => hs (Or.inr h)⟩
      · rintro ⟨rfl | hx, hs⟩
        · exact Or.inl rfl
        · by_cases hxa : x = a
          · exact Or.inl hxa
          · exact Or.inr ⟨hx, fun h => h.elim hxa hs⟩

theorem mem_jsSetDedup (l : List String) (x : String) : x ∈ jsSetDedup l ↔ x ∈ l := by
  simp [jsSetDedup, mem_jsSetDedupAux]

theorem nodup_jsSetDedupAux (seen l : List String) : (jsSetDedupAux seen l).Nodup := by
  induction l generalizing seen with
  | nil => simp [jsSetDedupAux]
  | cons a as ih =>
    by_cases ha : a ∈ seen
    · simpa [jsSetDedupAux, if_pos ha] using ih seen
    · simp only [jsSetDedupAux, if_neg ha, List.nodup_cons]
      refine ⟨fun hmem => ?_, ih (a :: seen)⟩
      exact ((mem_jsSetDedupAux _ _ _).mp hmem).2 (List.mem_cons_self a seen)

theorem nodup_jsSetDedup (l : List String) : (jsSetDedup l).Nodup :=
  nodup_jsSetDedupAux [] l

theorem jsSetDedupAux_of_nodup (seen l : List String) (hl : l.Nodup)
    (hdisj : ∀ x ∈ l, x ∉ seen) : jsSetDedupAux seen l = l := by
  induction l generalizing seen with
  | nil => rfl
  | cons a as ih =>
    have ha : a ∉ seen := hdisj a (List.mem_cons_self a as)
    have has : a ∉ as := (List.nodup_cons.mp hl).1
    simp only [jsSetDedupAux, if_neg ha]
    rw [ih (a :: seen) (List.nodup_cons.mp hl).2]
    intro x hx
    simp only [List.mem_cons]
    rintro (rfl | hxs)
    · exact has hx
    · exact hdisj x (List.mem_cons_of_mem _ hx) hxs

theorem jsSetDedup_of_nodup (l : List String) (hl : l.Nodup) : jsSetDedup l = l :=
  jsSetDedupAux_of_nodup [] l hl (by simp)

theorem toFinset_jsSetDedup (l : List String) : (jsSetDedup l).toFinset = l.toFinset := by
  apply Finset.ext
  intro x
  simp [List.mem_toFinset, mem_jsSetDedup]

theorem length_jsSetDedup (l : List String) : (jsSetDedup l).length = l.toFinset.card := by
  rw [← toFinset_jsSetDedup]
  exact (List.toFinset_card_of_nodup (nodup_jsSetDedup l)).symm

theorem attachTokens_length (briefId : Nat) (tok : Nat → Nat) (es : List String) (i : Nat) :
    (attachTokens briefId tok es i).length = es.length := by
  induction es generalizing i with
  | nil => rfl
  | cons e es ih => simp [attachTokens, ih]

theorem attachTokens_emails (briefId : Nat) (tok : Nat → Nat) (es : List String) (i : Nat) :
    (attachTokens briefId tok es i).map ResponseRow.recipient_email = es := by
  induction es generalizing i with
  | nil => rfl
  | cons e es ih => simp [attachTokens, ih]

theorem attachTokens_tokens (briefId : Nat) (tok : Nat → Nat) (es : List String) (i : Nat) :
    (attachTokens briefId tok es i).map ResponseRow.secure_token
      = (List.range' i es.length).map tok := by
  induction es generalizing i with
  | nil => rfl
  | cons e es ih => simp [attachTokens, List.range', ih]

theorem attachTokens_tokens_nodup (briefId : Nat) (tok : Nat → Nat)
    (hinj : Function.Injective tok) (es : List String) (i : Nat) :
    ((attachTokens briefId tok es i).map ResponseRow.secure_token).Nodup := by
  rw [attachTokens_tokens]
  exact List.Nodup.map hinj (List.nodup_range' i es.length)

/-! ## Non-atomic creation (NewBriefModal.tsx lines 154-213)

The brief insert and the bulk response insert are two separate network
calls inside one try/catch; a response-insert error is thrown, caught, and
surfaced as a toast, with no rollback of the already-inserted brief row. -/

/-- What the catch block surfaces to the user. -/
inductive SubmitOutcome
  | success
  | errorToast
deriving DecidableEq

/-- The two tables the submit handler writes. -/
structure DbState where
  briefs : List BriefRow
  responses : List ResponseRow
deriving DecidableEq

/-- Source `handleSubmit` as a transition on the database state.  The oracles
`briefInsertOk` and `respInsertOk` say whether each of the two inserts
succeeds on the network; a failed response insert throws into the catch
block, which only shows an error toast (lines 205-210) and leaves the brief
row in place. -/
def handleSubmitDb (st : DbState) (briefId : Nat) (title promptText : String)
    (raw : List String) (tok : Nat → Nat) (briefInsertOk respInsertOk : Bool) :
    DbState × SubmitOutcome :=
  if (jsSetDedup raw).length = 0 then (st, .errorToast)
  else if briefInsertOk = false then (st, .errorToast)
  else
    let st1 : DbState :=
      ⟨st.briefs ++ [⟨briefId, title, promptText, jsSetDedup raw,
                      (jsSetDedup raw).length, "draft"⟩], st.responses⟩
    if respInsertOk = false then (st1, .errorToast)
    else (⟨st1.briefs, st1.responses ++ attachTokens briefId tok (jsSetDedup raw) 0⟩, .success)

/-- Claim C1: creating a brief first deduplicates the submitted recipient
list, inserts one brief row whose `recipients` is the deduplicated list and
whose `total_recipients` is the number of distinct emails, and inserts one
response row per distinct recipient email with pairwise-distinct secure
tokens; a list of N unique emails yields exactly N response rows, and
`["a@x.com", "a@x.com", "b@x.com"]` deduplicates to 2 recipients. -/
theorem brief_creation_dedup_and_tokens (briefId : Nat) (title promptText : String)
    (raw : List String) (tok : Nat → Nat) (hraw : raw ≠ [])
    (hinj : Function.Injective tok) :
    ∃ res, createBriefResult briefId title promptText raw tok = some res
      ∧ res.brief.recipients = jsSetDedup raw
      ∧ res.brief.recipients.Nodup
      ∧ res.brief.total_recipients = raw.toFinset.card
      ∧ res.responses.length = raw.toFinset.card
      ∧ res.responses.map ResponseRow.recipient_email = jsSetDedup raw
      ∧ (res.responses.map ResponseRow.secure_token).Nodup
      ∧ (raw.Nodup → res.responses.length = raw.length)
      ∧ (jsSetDedup ["a@x.com", "a@x.com", "b@x.com"]).length = 2 := by
  have hne : jsSetDedup raw ≠ [] := by
    cases raw with
    | nil => exact absurd rfl hraw
    | cons a as =>
      intro h
      have hmem : a ∈ jsSetDedup (a :: as) :=
        (mem_jsSetDedup _ _).mpr (List.mem_cons_self a as)
      rw [h] at hmem
      exact List.not_mem_nil a hmem
  have hlen : ¬ (jsSetDedup raw).length = 0 := by
    simpa [List.length_eq_zero] using hne
  have hres : createBriefResult briefId title promptText raw tok
      = some ⟨⟨briefId, title, promptText, jsSetDedup raw, (jsSetDedup raw).length, "draft"⟩,
              attachTokens briefId tok (jsSetDedup raw) 0⟩ := by
    unfold createBriefResult
    rw [if_neg hlen]
  refine ⟨_, hres, rfl, nodup_jsSetDedup raw, length_jsSetDedup raw, ?_, ?_, ?_, ?_, ?_⟩
  · rw [attachTokens_length]
    exact length_jsSetDedup raw
  · exact attachTokens_emails _ _ _ _
  · exact attachTokens_tokens_nodup _ _ hinj _ _
  · intro hnd
    rw [attachTokens_length, jsSetDedup_of_nodup raw hnd]
  · decide

/-- Witness for C1 at the spec's concrete input: the duplicated list
`["a@x.com", "a@x.com", "b@x.com"]` with the identity token stream. -/
theorem brief_creation_dedup_and_tokens_witness :
    ∃ res, createBriefResult 1 "t" "p" ["a@x.com", "a@x.com", "b@x.com"] id = some res
      ∧ res.brief.recipients = jsSetDedup ["a@x.com", "a@x.com", "b@x.com"]
      ∧ res.brief.recipients.Nodup
      ∧ res.brief.total_recipients = (["a@x.com", "a@x.com", "b@x.com"] : List String).toFinset.card
      ∧ res.responses.length = (["a@x.com", "a@x.com", "b@x.com"] : List String).toFinset.card
      ∧ res.responses.map ResponseRow.recipient_email = jsSetDedup ["a@x.com", "a@x.com", "b@x.com"]
      ∧ (res.responses.map ResponseRow.secure_token).Nodup
      ∧ ((["a@x.com", "a@x.com", "b@x.com"] : List String).Nodup →
          res.responses.length = (["a@x.com", "a@x.com", "b@x.com"] : List String).length)
      ∧ (jsSetDedup ["a@x.com", "a@x.com", "b@x.com"]).length = 2 :=
  brief_creation_dedup_and_tokens 1 "t" "p" ["a@x.com", "a@x.com", "b@x.com"] id
    (List.cons_ne_nil _ _) Function.injective_id

/-- Claim C3: brief creation is not atomic.  In the execution where the
brief insert succeeds and the bulk response insert fails, the handler ends
with the error toast, the brief row persists in the database, and that
brief's `total_recipients` exceeds its number of response rows. -/
theorem brief_creation_not_atomic :
    (handleSubmitDb ⟨[], []⟩ 7 "t" "p" ["a@x.com", "b@x.com"] id true false).2
        = SubmitOutcome.errorToast
    ∧ (handleSubmitDb ⟨[], []⟩ 7 "t" "p" ["a@x.com", "b@x.com"] id true false).1.briefs
        = [⟨7, "t", "p", ["a@x.com", "b@x.com"], 2, "draft"⟩]
    ∧ ((handleSubmitDb ⟨[], []⟩ 7 "t" "p" ["a@x.com", "b@x.com"] id true false).1.responses.filter
          (fun r => r.brief_id == 7)).length
        < (BriefRow.mk 7 "t" "p" ["a@x.com", "b@x.com"] 2 "draft").total_recipients := by
  refine ⟨rfl, ?_, ?_⟩ <;> decide

/-! ## The responses table constraints (migration lines 144-156)

`CREATE TABLE public.responses (... secure_token TEXT NOT NULL UNIQUE, ...,
UNIQUE(brief_id, recipient_email))`: inserts violating either uniqueness
constraint are rejected by the database regardless of what the client sends. -/

/-- Would inserting `r` violate `UNIQUE(brief_id, recipient_email)`? -/
def pairConflict (db : List ResponseRow) (r : ResponseRow) : Bool :=
  db.any (fun x => x.brief_id == r.brief_id && x.recipient_email == r.recipient_email)

/-- Would inserting `r` violate `secure_token ... UNIQUE`? -/
def tokenConflict (db : List ResponseRow) (r : ResponseRow) : Bool :=
  db.any (fun x => x.secure_token == r.secure_token)

/-- INSERT into `responses`: the database rejects the row when either
uniqueness constraint would be violated. -/
def insertResponse (db : List ResponseRow) (r : ResponseRow) : Option (List ResponseRow) :=
  if pairConflict db r || tokenConflict db r then none else some (r :: db)

/-- DELETE from `responses` (including the ON DELETE CASCADE from briefs). -/
def deleteResponses (db : List ResponseRow) (p : ResponseRow → Bool) : List ResponseRow :=
  db.filter (fun r => !(p r))

/-- Response-table states reachable through the constrained operations. -/
inductive ReachableResponses : List ResponseRow → Prop
  | empty : ReachableResponses []
  | insert {db db2 : List ResponseRow} {r : ResponseRow} :
      ReachableResponses db → insertResponse db r = some db2 → ReachableResponses db2
  | delete {db : List ResponseRow} (p : ResponseRow → Bool) :
      ReachableResponses db → ReachableResponses (deleteResponses db p)

/-- Two response rows do not collide on the `(brief_id, recipient_email)` key. -/
def distinctPair (a b : ResponseRow) : Prop :=
  ¬(a.brief_id = b.brief_id ∧ a.recipient_email = b.recipient_email)

theorem reachable_responses_pairwise {db : List ResponseRow} (h : ReachableResponses db) :
    db.Pairwise distinctPair := by
  induction h with
  | empty => exact List.Pairwise.nil
  | @insert db db2 r hdb hins ih =>
    unfold insertResponse at hins
    by_cases hc : (pairConflict db r || tokenConflict db r) = true
    · rw [if_pos hc] at hins
      cases hins
    · rw [if_neg hc] at hins
      cases hins
      rw [List.pairwise_cons]
      refine ⟨?_, ih⟩
      intro x hx hcontra
      obtain ⟨h1, h2⟩ := hcontra
      have hpc : pairConflict db r = true := by
        unfold pairConflict
        rw [List.any_eq_true]
        exact ⟨x, hx, by simp [h1, h2]⟩
      simp [hpc] at hc
  | delete p hdb ih =>
    exact List.Pairwise.sublist (List.filter_sublist _) ih

/-- Claim C2: in every reachable state of the responses table no two rows
share the same `(brief_id, recipient_email)` pair, and an insert that would
create a second response for the same brief and recipient email fails; the
constraint is checked by the table itself, with no client-side
deduplication in the model. -/
theorem responses_pair_unique :
    (∀ db, ReachableResponses db → db.Pairwise distinctPair)
    ∧ (∀ db (r x : ResponseRow), x ∈ db → x.brief_id = r.brief_id →
        x.recipient_email = r.recipient_email → insertResponse db r = none) := by
  refine ⟨fun db h => reachable_responses_pairwise h, ?_⟩
  intro db r x hx h1 h2
  have hpc : pairConflict db r = true := by
    unfold pairConflict
    rw [List.any_eq_true]
    exact ⟨x, hx, by simp [h1, h2]⟩
  unfold insertResponse
  rw [if_pos (by simp [hpc])]

/-- Witness for C2: a singleton table reached by one insert satisfies the
pair invariant, and inserting a second row for the same brief and email
(with a different token) is rejected. -/
theorem responses_pair_unique_witness :
    ([⟨1, "a@x.com", 5⟩] : List ResponseRow).Pairwise distinctPair
    ∧ insertResponse [⟨1, "a@x.com", 5⟩] ⟨1, "a@x.com", 9⟩ = none :=
  ⟨responses_pair_unique.1 [⟨1, "a@x.com", 5⟩]
      (ReachableResponses.insert ReachableResponses.empty
        (show insertResponse [] ⟨1, "a@x.com", 5⟩ = some [⟨1, "a@x.com", 5⟩] by decide)),
   responses_pair_unique.2 [⟨1, "a@x.com", 5⟩] ⟨1, "a@x.com", 9⟩ ⟨1, "a@x.com", 5⟩
      (List.mem_singleton_self _) rfl rfl⟩

/-! ## Brief status: CHECK constraint and UI transitions

Migration line 111: `status TEXT NOT NULL DEFAULT 'draft' CHECK (status IN
('draft', 'sent', 'in_progress', 'completed', 'archived'))`.  The UI updates
the field directly: `handleSend` runs `update({ status: 'sent' })` and
`handleArchive` runs `update({ status: 'archived' })`, with no condition on
the current status and no rollback. -/

/-- The CHECK constraint on `briefs.status`. -/
def validStatus (s : String) : Bool :=
  s == "draft" || s == "sent" || s == "in_progress" || s == "completed" || s == "archived"

/-- Write operations on the briefs table. -/
inductive BriefsOp
  | insert (b : BriefRow)
  | updateStatus (i : Nat) (s : String)
  | delete (i : Nat)

/-- Applying an operation; inserts and status updates are rejected when the
CHECK constraint fails. -/
def applyBriefsOp (db : List BriefRow) : BriefsOp → Option (List BriefRow)
  | .insert b => if validStatus b.status then some (db ++ [b]) else none
  | .updateStatus i s =>
      if validStatus s then
        some (db.map (fun b => if b.id = i then { b with status := s } else b))
      else none
  | .delete i => some (db.filter (fun b => !(b.id == i)))

/-- Brief-table states reachable through the constrained operations. -/
inductive ReachableBriefs : List BriefRow → Prop
  | empty : ReachableBriefs []
  | step {db db2 : List BriefRow} {op : BriefsOp} :
      ReachableBriefs db → applyBriefsOp db op = some db2 → ReachableBriefs db2

/-- Source `handleSend` (part_003 lines 383-407). -/
def handleSendOp (i : Nat) : BriefsOp := .updateStatus i "sent"

/-- Source `handleArchive`'s status update (part_003 lines 427-430). -/
def handleArchiveOp (i : Nat) : BriefsOp := .updateStatus i "archived"

theorem reachable_briefs_valid_status {db : List BriefRow} (h : ReachableBriefs db) :
    ∀ b ∈ db, validStatus b.status = true := by
  induction h with
  | empty => intro b hb; exact absurd hb (List.not_mem_nil b)
  | @step db db2 op hdb hop ih =>
    intro b hb
    cases op with
    | insert nb =>
      simp only [applyBriefsOp] at hop
      by_cases hv : validStatus nb.status = true
      · rw [if_pos hv] at hop
        cases hop
        rcases List.mem_append.mp hb with h1 | h1
        · exact ih b h1
        · have hb2 := List.mem_singleton.mp h1
          subst hb2
          exact hv
      · rw [if_neg hv] at hop
        cases hop
    | updateStatus i s =>
      simp only [applyBriefsOp] at hop
      by_cases hv : validStatus s = true
      · rw [if_pos hv] at hop
        cases hop
        obtain ⟨a, ha, hfa⟩ := List.mem_map.mp hb
        by_cases hai : a.id = i
        · rw [if_pos hai] at hfa
          subst hfa
          exact hv
        · rw [if_neg hai] at hfa
          subst hfa
          exact ih a ha
      · rw [if_neg hv] at hop
        cases hop
    | delete i =>
      simp only [applyBriefsOp] at hop
      cases hop
      exact ih b (List.mem_filter.mp hb).1

/-- Claim C8: every reachable briefs table contains only the five CHECK
statuses; `createBriefResult` always inserts with status `draft`; the send
and archive updates always succeed and set the targeted brief's status to
`sent` / `archived` unconditionally, regardless of its current status. -/
theorem brief_status_transitions :
    (∀ db, ReachableBriefs db → ∀ b ∈ db, validStatus b.status = true)
    ∧ (∀ briefId title promptText raw tok res,
        createBriefResult briefId title promptText raw tok = some res →
        res.brief.status = "draft")
    ∧ (∀ db i, ∃ db2, applyBriefsOp db (handleSendOp i) = some db2
        ∧ db2 = db.map (fun b => if b.id = i then { b with status := "sent" } else b))
    ∧ (∀ db i, ∃ db2, applyBriefsOp db (handleArchiveOp i) = some db2
        ∧ db2 = db.map (fun b => if b.id = i then { b with status := "archived" } else b)) := by
  refine ⟨fun db h => reachable_briefs_valid_status h, ?_, ?_, ?_⟩
  · intro briefId title promptText raw tok res hres
    unfold createBriefResult at hres
    by_cases hl : (jsSetDedup raw).length = 0
    · rw [if_pos hl] at hres
      cases hres
    · rw [if_neg hl] at hres
      cases hres
      rfl
  · intro db i
    refine ⟨_, ?_, rfl⟩
    simp only [handleSendOp, applyBriefsOp]
    rw [if_pos (show validStatus "sent" = true by decide)]
  · intro db i
    refine ⟨_, ?_, rfl⟩
    simp only [handleArchiveOp, applyBriefsOp]
    rw [if_pos (show validStatus "archived" = true by decide)]

/-- Witness for C8: a table holding a freshly created draft brief is
reachable and has a valid status; creating a brief concretely yields status
`draft`; and the send update on the empty table succeeds. -/
theorem brief_status_transitions_witness :
    validStatus (BriefRow.mk 3 "t" "p" ["a@x.com"] 1 "draft").status = true
    ∧ (⟨⟨3, "t", "p", ["a@x.com"], 1, "draft"⟩, [⟨3, "a@x.com", 0⟩]⟩ : CreateResult).brief.status
        = "draft"
    ∧ (∃ db2, applyBriefsOp [] (handleSendOp 3) = some db2
        ∧ db2 = List.map (fun b => if b.id = 3 then { b with status := "sent" } else b) []) :=
  ⟨brief_status_transitions.1 [⟨3, "t", "p", ["a@x.com"], 1, "draft"⟩]
      (ReachableBriefs.step ReachableBriefs.empty
        (show applyBriefsOp [] (.insert ⟨3, "t", "p", ["a@x.com"], 1, "draft"⟩)
            = some [⟨3, "t", "p", ["a@x.com"], 1, "draft"⟩] by decide))
      _ (List.mem_singleton_self _),
   brief_status_transitions.2.1 3 "t" "p" ["a@x.com"] id
      ⟨⟨3, "t", "p", ["a@x.com"], 1, "draft"⟩, [⟨3, "a@x.com", 0⟩]⟩ (by decide),
   brief_status_transitions.2.2.1 [] 3⟩

/-! ## The send-brief-cancellation edge function

From the serverless function source: CORS preflight is answered directly;
otherwise the body is parsed, one email send is attempted per recipient with
per-send errors caught inside the map, and a 200 response reports the
counts; only a throw while processing the request itself (e.g. an
unparsable body) produces a 500. -/

/-- The parsed request body `{ briefId, briefTitle, recipients }`. -/
structure CancellationRequest where
  briefId : String
  briefTitle : String
  recipients : List String

/-- One entry of the `results` array: `{ email, success, ... }`. -/
structure SendResult where
  email : String
  success : Bool
deriving DecidableEq

/-- The JSON body of the handler's response. -/
inductive RespBody
  | empty
  | okBody (success : Bool) (briefId briefTitle : String)
      (totalRecipients successful failed : Nat) (results : List SendResult)
  | errBody (success : Bool) (error : String)
deriving DecidableEq

/-- An HTTP response: status, whether the CORS headers are attached, body. -/
structure HttpResponse where
  status : Nat
  cors : Bool
  body : RespBody
deriving DecidableEq

/-- An incoming request: an OPTIONS preflight, or a POST whose body parses
to a `CancellationRequest` (`none` models an unparsable body, which makes
`req.json()` throw). -/
inductive EdgeRequest
  | options
  | post (body : Option CancellationRequest)

/-- The send-brief-cancellation handler.  `sendOk` is the oracle saying
whether the transactional email API call for a given address succeeds; a
failed send is caught inside the per-recipient map and recorded in
`results`, never escaping to the outer catch. -/
def cancellationHandler (sendOk : String → Bool) : EdgeRequest → HttpResponse
  | .options => ⟨200, true, .empty⟩
  | .post none => ⟨500, true, .errBody false "parse error"⟩
  | .post (some c) =>
    let results := c.recipients.map (fun e => SendResult.mk e (sendOk e))
    ⟨200, true,
      .okBody true c.briefId c.briefTitle c.recipients.length
        ((results.filter (fun r => r.success)).length)
        ((results.filter (fun r => !r.success)).length)
        results⟩

theorem filter_map_send (f : String → Bool) (l : List String) :
    ((l.map (fun e => SendResult.mk e (f e))).filter (fun r => r.success)).length
      = (l.filter f).length := by
  induction l with
  | nil => rfl
  | cons a as ih =>
    by_cases h : f a
    · simp [List.filter_cons, h, ih]
    · simp [List.filter_cons, h, ih]

theorem filter_map_send_not (f : String → Bool) (l : List String) :
    ((l.map (fun e => SendResult.mk e (f e))).filter (fun r => !r.success)).length
      = (l.filter (fun e => !f e)).length := by
  induction l with
  | nil => rfl
  | cons a as ih =>
    by_cases h : f a
    · simp [List.filter_cons, h, ih]
    · simp [List.filter_cons, h, ih]

theorem length_filter_add_length_filter_not (f : String → Bool) (l : List String) :
    (l.filter f).length + (l.filter (fun e => !f e)).length = l.length := by
  induction l with
  | nil => rfl
  | cons a as ih =>
    by_cases h : f a
    · simp [List.filter_cons, h]
      omega
    · simp [List.filter_cons, h]
      omega

/-- Claim C4: a parsed body with N recipients always yields HTTP 200 with
`success = true`, `totalRecipients = N`, one result per recipient,
`successful` and `failed` counting the send outcomes with
`successful + failed = N`, even when sends fail; an unparsable body yields
HTTP 500 with `success = false`; an OPTIONS request is answered with the
CORS headers. -/
theorem cancellation_handler_contract (sendOk : String → Bool) (c : CancellationRequest) :
    cancellationHandler sendOk (.post (some c))
      = ⟨200, true, .okBody true c.briefId c.briefTitle c.recipients.length
          ((c.recipients.filter sendOk).length)
          ((c.recipients.filter (fun e => !sendOk e)).length)
          (c.recipients.map (fun e => SendResult.mk e (sendOk e)))⟩
    ∧ (c.recipients.filter sendOk).length
        + (c.recipients.filter (fun e => !sendOk e)).length = c.recipients.length
    ∧ (c.recipients.map (fun e => SendResult.mk e (sendOk e))).length = c.recipients.length
    ∧ cancellationHandler sendOk (.post none) = ⟨500, true, .errBody false "parse error"⟩
    ∧ cancellationHandler sendOk .options = ⟨200, true, .empty⟩ := by
  refine ⟨?_, length_filter_add_length_filter_not sendOk c.recipients,
          List.length_map _ _, rfl, rfl⟩
  simp only [cancellationHandler]
  rw [filter_map_send, filter_map_send_not]

/-! ## Deleting and archiving a brief

`handleDelete` (BriefDetailModal.tsx lines 52-94) and `handleArchive`
(part_003 lines 409-451) both invoke the `send-brief-cancellation` function
with the brief's id, title and current recipients, log an invocation error
without acting on it, and then delete / archive the brief. -/

/-- The brief fields the detail modal holds. -/
structure BriefUI where
  id : String
  title : String
  recipients : List String
  status : String

/-- Externally visible steps of the delete and archive flows. -/
inductive FlowAction
  | invokeCancellation (briefId briefTitle : String) (recipients : List String)
  | logEmailError
  | deleteBrief (briefId : String)
  | archiveBrief (briefId : String)
deriving DecidableEq

/-- Source `handleDelete`: invoke the edge function with the brief's fields; on an
invocation error only `console.error` runs; then delete the brief.  Returns
the action trace and whether the success toast was reached (`dbErr` is an
error from the delete itself, which the catch block turns into an error
toast). -/
def handleDelete (brief : BriefUI) (emailErr dbErr : Bool) : List FlowAction × Bool :=
  (FlowAction.invokeCancellation brief.id brief.title brief.recipients ::
    (if emailErr then [FlowAction.logEmailError] else []) ++
      [FlowAction.deleteBrief brief.id], !dbErr)

/-- Source `handleArchive`: same flow, with `update({ status: 'archived' })` in
place of the delete. -/
def handleArchive (brief : BriefUI) (emailErr dbErr : Bool) : List FlowAction × Bool :=
  (FlowAction.invokeCancellation brief.id brief.title brief.recipients ::
    (if emailErr then [FlowAction.logEmailError] else []) ++
      [FlowAction.archiveBrief brief.id], !dbErr)

/-- Claim C5: both flows first invoke send-brief-cancellation with the
brief's id, title and current recipients, and the delete / archive step is
always the last action and the outcome never depends on whether the
invocation returned an error. -/
theorem delete_archive_invoke_cancellation (brief : BriefUI) (emailErr dbErr : Bool) :
    (handleDelete brief emailErr dbErr).1.head?
        = some (FlowAction.invokeCancellation brief.id brief.title brief.recipients)
    ∧ (handleDelete brief emailErr dbErr).1.getLast?
        = some (FlowAction.deleteBrief brief.id)
    ∧ (handleDelete brief emailErr dbErr).2 = (handleDelete brief false dbErr).2
    ∧ (handleArchive brief emailErr dbErr).1.head?
        = some (FlowAction.invokeCancellation brief.id brief.title brief.recipients)
    ∧ (handleArchive brief emailErr dbErr).1.getLast?
        = some (FlowAction.archiveBrief brief.id)
    ∧ (handleArchive brief emailErr dbErr).2 = (handleArchive brief false dbErr).2 := by
  cases emailErr <;>
    simp [handleDelete, handleArchive, List.getLast?]

/-! ## Row-level-security policies (first migration file, second migration file)

Each policy's USING / WITH CHECK expression, translated row by row.  SQL
`auth.uid() = user_id` is never true when `auth.uid()` is NULL
(unauthenticated) or when the compared column is NULL. -/

/-- The requester as seen by the database: `auth.uid()` (`none` when
unauthenticated) together with the secure tokens the requester happens to
know.  Token knowledge lives only on the client; no policy expression reads
it. -/
structure Requester where
  uid : Option String
  knownTokens : List Nat

/-- SQL `auth.uid() = user_id` against a NOT NULL owner column. -/
def sqlUidEq (uid : Option String) (owner : String) : Bool :=
  match uid with
  | some u => u == owner
  | none => false

/-- SQL `auth.uid() = user_id` against the nullable
`brief_templates.user_id` column. -/
def sqlUidEqNullable (uid : Option String) (owner : Option String) : Bool :=
  match uid, owner with
  | some u, some v => u == v
  | _, _ => false

/-- Policy "Users can view their own profile" (USING `auth.uid() = user_id`). -/
def profilesSelectPolicy (uid : Option String) (owner : String) : Bool := sqlUidEq uid owner

/-- Policy "Users can insert their own profile". -/
def profilesInsertPolicy (uid : Option String) (owner : String) : Bool := sqlUidEq uid owner

/-- Policy "Users can update their own profile". -/
def profilesUpdatePolicy (uid : Option String) (owner : String) : Bool := sqlUidEq uid owner

/-- Policy "Users can view their own teams". -/
def teamsSelectPolicy (uid : Option String) (owner : String) : Bool := sqlUidEq uid owner

/-- Policy "Users can create their own teams". -/
def teamsInsertPolicy (uid : Option String) (owner : String) : Bool := sqlUidEq uid owner

/-- Policy "Users can update their own teams". -/
def teamsUpdatePolicy (uid : Option String) (owner : String) : Bool := sqlUidEq uid owner

/-- Policy "Users can delete their own teams". -/
def teamsDeletePolicy (uid : Option String) (owner : String) : Bool := sqlUidEq uid owner

/-- Policy "Users can view their own briefs". -/
def briefsSelectPolicy (uid : Option String) (owner : String) : Bool := sqlUidEq uid owner

/-- Policy "Users can create their own briefs". -/
def briefsInsertPolicy (uid : Option String) (owner : String) : Bool := sqlUidEq uid owner

/-- Policy "Users can update their own briefs". -/
def briefsUpdatePolicy (uid : Option String) (owner : String) : Bool := sqlUidEq uid owner

/-- Policy "Users can delete their own briefs". -/
def briefsDeletePolicy (uid : Option String) (owner : String) : Bool := sqlUidEq uid owner

/-- A row of the `brief_templates` table. -/
structure TemplateRow where
  id : Nat
  user_id : Option String
  name : String
  description : String
  prompt : String
  is_system : Bool
  is_public : Bool
deriving DecidableEq

/-- Policy "Users can view public and system templates" (USING `is_public = true
OR is_system = true OR auth.uid() = user_id`). -/
def templatesSelectPolicy (uid : Option String) (row : TemplateRow) : Bool :=
  row.is_public || row.is_system || sqlUidEqNullable uid row.user_id

/-- Policy "Users can create their own templates" (WITH CHECK `auth.uid() =
user_id AND is_system = false`). -/
def templatesInsertPolicy (uid : Option String) (row : TemplateRow) : Bool :=
  sqlUidEqNullable uid row.user_id && !row.is_system

/-- Policy "Users can update their own templates" (USING `auth.uid() = user_id AND
is_system = false`). -/
def templatesUpdatePolicy (uid : Option String) (row : TemplateRow) : Bool :=
  sqlUidEqNullable uid row.user_id && !row.is_system

/-- Policy "Users can delete their own templates". -/
def templatesDeletePolicy (uid : Option String) (row : TemplateRow) : Bool :=
  sqlUidEqNullable uid row.user_id && !row.is_system

/-- Policy "Responses accessible via secure token" (FOR ALL USING `(true)`): the
policy expression is the constant `true` and never mentions any token. -/
def responsesPolicy (_requester : Requester) (_row : ResponseRow) : Bool := true

theorem sqlUidEqNullable_none (owner : Option String) : sqlUidEqNullable none owner = false := by
  cases owner <;> rfl

/-- Counterexample to C6 as stated: the responses policy admits a requester
who holds no tokens at all — an anonymous requester with an empty token
list may read and modify a row whose secure token (42) it does not hold.
The brief_templates select policy likewise admits a non-owner on a public
row. -/
theorem responses_token_never_checked :
    responsesPolicy ⟨none, []⟩ ⟨1, "a@x.com", 42⟩ = true
    ∧ (⟨none, []⟩ : Requester).knownTokens.contains
        (⟨1, "a@x.com", 42⟩ : ResponseRow).secure_token = false
    ∧ templatesSelectPolicy none ⟨5, some "owner", "n", "d", "p", false, true⟩ = true := by
  exact ⟨rfl, rfl, rfl⟩

/-- Claim C6 amended: the responses policy grants every operation to every
requester — possession of the per-row secure token is not consulted by any
policy expression — while the profiles, teams and briefs policies hold
exactly for the authenticated owner (never for an anonymous requester), and
the brief_templates write policies hold exactly for the authenticated owner
of a non-system row, its select policy additionally admitting public and
system templates to anyone. -/
theorem rls_access_scoping (req : Requester) (row : ResponseRow) (u owner : String)
    (t : TemplateRow) :
    responsesPolicy req row = true
    ∧ profilesSelectPolicy (some u) owner = (u == owner)
    ∧ profilesSelectPolicy none owner = false
    ∧ profilesInsertPolicy (some u) owner = (u == owner)
    ∧ profilesInsertPolicy none owner = false
    ∧ profilesUpdatePolicy (some u) owner = (u == owner)
    ∧ profilesUpdatePolicy none owner = false
    ∧ teamsSelectPolicy (some u) owner = (u == owner)
    ∧ teamsSelectPolicy none owner = false
    ∧ teamsInsertPolicy (some u) owner = (u == owner)
    ∧ teamsInsertPolicy none owner = false
    ∧ teamsUpdatePolicy (some u) owner = (u == owner)
    ∧ teamsUpdatePolicy none owner = false
    ∧ teamsDeletePolicy (some u) owner = (u == owner)
    ∧ teamsDeletePolicy none owner = false
    ∧ briefsSelectPolicy (some u) owner = (u == owner)
    ∧ briefsSelectPolicy none owner = false
    ∧ briefsInsertPolicy (some u) owner = (u == owner)
    ∧ briefsInsertPolicy none owner = false
    ∧ briefsUpdatePolicy (some u) owner = (u == owner)
    ∧ briefsUpdatePolicy none owner = false
    ∧ briefsDeletePolicy (some u) owner = (u == owner)
    ∧ briefsDeletePolicy none owner = false
    ∧ templatesUpdatePolicy (some u) t = (sqlUidEqNullable (some u) t.user_id && !t.is_system)
    ∧ templatesUpdatePolicy none t = false
    ∧ templatesDeletePolicy (some u) t = (sqlUidEqNullable (some u) t.user_id && !t.is_system)
    ∧ templatesDeletePolicy none t = false
    ∧ templatesInsertPolicy none t = false
    ∧ templatesSelectPolicy none t = (t.is_public || t.is_system) := by
  refine ⟨rfl, rfl, rfl, rfl, rfl, rfl, rfl, rfl, rfl, rfl, rfl, rfl, rfl, rfl, rfl, rfl, rfl,
         rfl, rfl, rfl, rfl, rfl, rfl, rfl, ?_, rfl, ?_, ?_, ?_⟩
  · simp [templatesUpdatePolicy, sqlUidEqNullable_none]
  · simp [templatesDeletePolicy, sqlUidEqNullable_none]
  · simp [templatesInsertPolicy, sqlUidEqNullable_none]
  · simp [templatesSelectPolicy, sqlUidEqNullable_none]

/-! ## Editing a template (TemplateEditModal.handleSubmit)

For a system template the form inserts a fresh private copy
(`is_system: false, is_public: false`, owned by the requester); for a user
template it updates the row in place via `update(...).eq('id', ...)`, which
row-level security restricts to rows owned by the requester with
`is_system = false` (rows failing the policy are silently left as they
were). -/

/-- The form fields of the template edit modal. -/
structure TemplateForm where
  name : String
  description : String
  prompt : String

/-- Source `update({name, description, prompt}).eq('id', tid)` on brief_templates:
rows matching the filter and passing the update policy get the new fields,
all other rows are untouched. -/
def applyTemplateUpdate (uid : String) (tid : Nat) (form : TemplateForm)
    (db : List TemplateRow) : List TemplateRow :=
  db.map (fun row =>
    if row.id == tid && templatesUpdatePolicy (some uid) row then
      { row with name := form.name, description := form.description, prompt := form.prompt }
    else row)

/-- Source `TemplateEditModal.handleSubmit` (part_004, lines 226-268): branch on
`template.is_system`; insert a fresh non-system private copy owned by the
requester, or update the existing row in place.  The inserted copy passes
the insert policy (`auth.uid() = user_id AND is_system = false`). -/
def templateEditSubmit (uid : String) (freshId : Nat) (t : TemplateRow)
    (form : TemplateForm) (db : List TemplateRow) : List TemplateRow :=
  if t.is_system then
    db ++ [⟨freshId, some uid, form.name, form.description, form.prompt, false, false⟩]
  else
    applyTemplateUpdate uid t.id form db

/-- Claim C7: submitting the edit form for a system template only appends a
fresh row carrying the edited fields with `is_system = false` and
`is_public = false`, leaving every existing row (the original system row
included) unchanged; for a non-system template it updates the requester's
row with that id in place and touches no other row; and the update / delete
policies reject any row that is a system template or is not owned by the
requester. -/
theorem template_edit_frame (uid : String) (freshId : Nat) (t : TemplateRow)
    (form : TemplateForm) (db : List TemplateRow) :
    (t.is_system = true →
      templateEditSubmit uid freshId t form db
          = db ++ [⟨freshId, some uid, form.name, form.description, form.prompt, false, false⟩]
      ∧ ∀ row ∈ db, row ∈ templateEditSubmit uid freshId t form db)
    ∧ (t.is_system = false →
      templateEditSubmit uid freshId t form db = applyTemplateUpdate uid t.id form db
      ∧ (∀ row ∈ db, row.id = t.id → row.user_id = some uid → row.is_system = false →
          { row with name := form.name, description := form.description,
                     prompt := form.prompt } ∈ templateEditSubmit uid freshId t form db)
      ∧ (∀ row ∈ db, row.id ≠ t.id → row ∈ templateEditSubmit uid freshId t form db))
    ∧ (∀ v (row : TemplateRow), row.is_system = true →
        templatesUpdatePolicy v row = false ∧ templatesDeletePolicy v row = false)
    ∧ (∀ v (row : TemplateRow), sqlUidEqNullable v row.user_id = false →
        templatesUpdatePolicy v row = false ∧ templatesDeletePolicy v row = false) := by
  refine ⟨?_, ?_, ?_, ?_⟩
  · intro hsys
    rw [templateEditSubmit, if_pos hsys]
    exact ⟨rfl, fun row hrow => List.mem_append_left _ hrow⟩
  · intro hsys
    rw [templateEditSubmit, if_neg (by simp [hsys])]
    refine ⟨rfl, ?_, ?_⟩
    · intro row hrow hid huid hns
      have hcond : (row.id == t.id && templatesUpdatePolicy (some uid) row) = true := by
        simp [hid, templatesUpdatePolicy, huid, sqlUidEqNullable, hns]
      unfold applyTemplateUpdate
      refine List.mem_map.mpr ⟨row, hrow, ?_⟩
      simp [hcond]
    · intro row hrow hid
      have hcond : (row.id == t.id && templatesUpdatePolicy (some uid) row) = false := by
        simp [hid]
      unfold applyTemplateUpdate
      refine List.mem_map.mpr ⟨row, hrow, ?_⟩
      simp [hcond]
  · intro v row hsys
    constructor <;> simp [templatesUpdatePolicy, templatesDeletePolicy, hsys]
  · intro v row huid
    constructor <;> simp [templatesUpdatePolicy, templatesDeletePolicy, huid]

/-- Witness for C7: editing a concrete system template appends its private
copy and leaves the system row in place; the update policy rejects a
concrete owned system row. -/
theorem template_edit_frame_witness :
    (templateEditSubmit "u" 9 ⟨1, none, "n", "d", "p", true, true⟩ ⟨"n2", "d2", "p2"⟩
        [⟨1, none, "n", "d", "p", true, true⟩]
      = [⟨1, none, "n", "d", "p", true, true⟩] ++ [⟨9, some "u", "n2", "d2", "p2", false, false⟩]
      ∧ ∀ row ∈ [(⟨1, none, "n", "d", "p", true, true⟩ : TemplateRow)],
          row ∈ templateEditSubmit "u" 9 ⟨1, none, "n", "d", "p", true, true⟩ ⟨"n2", "d2", "p2"⟩
            [⟨1, none, "n", "d", "p", true, true⟩])
    ∧ (templatesUpdatePolicy (some "u") ⟨2, some "u", "n", "d", "p", true, false⟩ = false
      ∧ templatesDeletePolicy (some "u") ⟨2, some "u", "n", "d", "p", true, false⟩ = false) :=
  ⟨(template_edit_frame "u" 9 ⟨1, none, "n", "d", "p", true, true⟩ ⟨"n2", "d2", "p2"⟩
      [⟨1, none, "n", "d", "p", true, true⟩]).1 rfl,
   (template_edit_frame "u" 9 ⟨1, none, "n", "d", "p", true, true⟩ ⟨"n2", "d2", "p2"⟩
      [⟨1, none, "n", "d", "p", true, true⟩]).2.2.1 (some "u")
      ⟨2, some "u", "n", "d", "p", true, false⟩ rfl⟩

/-! ## Progress percentage (BriefDetailModal.tsx lines 96-98, Dashboard.tsx
lines 619-623)

`brief.total_recipients > 0 ? Math.round((brief.response_count /
brief.total_recipients) * 100) : 0`, and on the dashboard the percentage
span is rendered only when `total_recipients > 0`. -/

/-- The detail modal's `progressPercentage`. -/
def progressPercentage (response_count total_recipients : Nat) : Int :=
  if 0 < total_recipients then
    round ((response_count : ℚ) / (total_recipients : ℚ) * 100)
  else 0

/-- The dashboard's conditionally rendered percentage (`none` = the span is
not rendered, so no division happens). -/
def dashboardPercentage (response_count total_recipients : Nat) : Option Int :=
  if 0 < total_recipients then
    some (round ((response_count : ℚ) / (total_recipients : ℚ) * 100))
  else none

/-- Claim C9: the progress percentage is total — when `total_recipients >
0` it is `round(100 * response_count / total_recipients)`, and when
`total_recipients = 0` the guarded branch yields 0 (detail modal) or skips
rendering (dashboard), with no division by zero. -/
theorem progress_percentage_total (rc tr : Nat) :
    (0 < tr → progressPercentage rc tr = round (100 * (rc : ℚ) / (tr : ℚ)))
    ∧ (tr = 0 → progressPercentage rc tr = 0)
    ∧ (tr = 0 → dashboardPercentage rc tr = none)
    ∧ (0 < tr → dashboardPercentage rc tr = some (progressPercentage rc tr)) := by
  refine ⟨?_, ?_, ?_, ?_⟩
  · intro h
    rw [progressPercentage, if_pos h]
    congr 1
    ring
  · intro h
    subst h
    rfl
  · intro h
    subst h
    rfl
  · intro h
    rw [dashboardPercentage, progressPercentage, if_pos h, if_pos h]

/-- Witness for C9 at one brief with responses and one with no recipients. -/
theorem progress_percentage_total_witness :
    progressPercentage 1 2 = round (100 * (1 : ℚ) / (2 : ℚ))
    ∧ progressPercentage 5 0 = 0
    ∧ dashboardPercentage 5 0 = none
    ∧ dashboardPercentage 1 2 = some (progressPercentage 1 2) :=
  ⟨(progress_percentage_total 1 2).1 (by decide),
   (progress_percentage_total 5 0).2.1 rfl,
   (progress_percentage_total 5 0).2.2.1 rfl,
   (progress_percentage_total 1 2).2.2.2 (by decide)⟩

/-! ## Parsing topics (MemberDetailsForm.tsx lines 34-37)

`updateTopics` runs `topicsString.split(',').map(t => t.trim()).filter(t =>
t.length > 0)`.  Strings are modelled as lists of characters. -/

/-- The whitespace characters `String.prototype.trim` strips, restricted to
the usual ASCII ones. -/
def isJsWhitespace (c : Char) : Bool :=
  c = ' ' || c = '\t' || c = '\n' || c = '\r' || c = '\x0b' || c = '\x0c'

/-- JS `s.trim()`: drop whitespace from the front, then from the back. -/
def jsTrim (l : List Char) : List Char :=
  ((l.dropWhile isJsWhitespace).reverse.dropWhile isJsWhitespace).reverse

/-- JS `s.split(',')` (note `"".split(',')` is `[""]`). -/
def splitComma : List Char → List (List Char)
  | [] => [[]]
  | c :: cs =>
    if c = ',' then [] :: splitComma cs
    else
      match splitComma cs with
      | [] => [[c]]
      | s :: rest => (c :: s) :: rest

/-- Source `updateTopics`: split on commas, trim each segment, drop empties. -/
def parseTopics (l : List Char) : List (List Char) :=
  ((splitComma l).map jsTrim).filter (fun t => decide (0 < t.length))

theorem dropWhile_head_not (p : Char → Bool) (l : List Char) (c : Char)
    (h : (l.dropWhile p).head? = some c) : p c = false := by
  induction l with
  | nil => simp [List.dropWhile] at h
  | cons a as ih =>
    by_cases ha : p a = true
    · rw [List.dropWhile_cons, if_pos ha] at h
      exact ih h
    · rw [List.dropWhile_cons, if_neg ha] at h
      rw [List.head?_cons] at h
      injection h with h2
      subst h2
      exact Bool.eq_false_iff.mpr ha

theorem dropWhile_suffix_exists (p : Char → Bool) (l : List Char) :
    ∃ q, l = q ++ l.dropWhile p := by
  induction l with
  | nil => exact ⟨[], rfl⟩
  | cons a as ih =>
    by_cases ha : p a = true
    · obtain ⟨q, hq⟩ := ih
      refine ⟨a :: q, ?_⟩
      rw [List.dropWhile_cons, if_pos ha, List.cons_append, ← hq]
    · refine ⟨[], ?_⟩
      rw [List.dropWhile_cons, if_neg ha, List.nil_append]

theorem jsTrim_getLast_not_ws (l : List Char) (c : Char)
    (h : (jsTrim l).getLast? = some c) : isJsWhitespace c = false := by
  unfold jsTrim at h
  rw [List.getLast?_reverse] at h
  exact dropWhile_head_not _ _ _ h

theorem jsTrim_head_not_ws (l : List Char) (c : Char)
    (h : (jsTrim l).head? = some c) : isJsWhitespace c = false := by
  unfold jsTrim at h
  obtain ⟨q, hq⟩ :=
    dropWhile_suffix_exists isJsWhitespace (l.dropWhile isJsWhitespace).reverse
  have hl : l.dropWhile isJsWhitespace
      = ((l.dropWhile isJsWhitespace).reverse.dropWhile isJsWhitespace).reverse ++ q.reverse := by
    have h2 := congrArg List.reverse hq
    simpa using h2
  cases hyr : ((l.dropWhile isJsWhitespace).reverse.dropWhile isJsWhitespace).reverse with
  | nil =>
    rw [hyr] at h
    simp at h
  | cons d ds =>
    rw [hyr] at h
    rw [List.head?_cons] at h
    injection h with h2
    subst h2
    have hhead : (l.dropWhile isJsWhitespace).head? = some d := by
      rw [hl, hyr]
      rfl
    exact dropWhile_head_not _ _ _ hhead

theorem mem_parseTopics (l t : List Char) (ht : t ∈ parseTopics l) :
    t ≠ []
    ∧ (∃ seg ∈ splitComma l, jsTrim seg = t)
    ∧ (∀ c, t.head? = some c → isJsWhitespace c = false)
    ∧ (∀ c, t.getLast? = some c → isJsWhitespace c = false) := by
  unfold parseTopics at ht
  obtain ⟨ht1, ht2⟩ := List.mem_filter.mp ht
  obtain ⟨seg, hseg, hst⟩ := List.mem_map.mp ht1
  have hpos : 0 < t.length := by simpa using ht2
  refine ⟨List.length_pos.mp hpos, ⟨seg, hseg, hst⟩, ?_, ?_⟩
  · intro c hc
    rw [← hst] at hc
    exact jsTrim_head_not_ws seg c hc
  · intro c hc
    rw [← hst] at hc
    exact jsTrim_getLast_not_ws seg c hc

/-- Claim C10: parsing a member's topics input yields exactly the trimmed
comma-separated segments with empty segments dropped; every stored topic is
nonempty, is the trim of some comma segment of the input, and starts and
ends with a non-whitespace character. -/
theorem topics_parsing (l : List Char) :
    parseTopics l = ((splitComma l).map jsTrim).filter (fun t => decide (0 < t.length))
    ∧ ∀ t ∈ parseTopics l,
        t ≠ []
        ∧ (∃ seg ∈ splitComma l, jsTrim seg = t)
        ∧ (∀ c, t.head? = some c → isJsWhitespace c = false)
        ∧ (∀ c, t.getLast? = some c → isJsWhitespace c = false) :=
  ⟨rfl, fun t ht => mem_parseTopics l t ht⟩

/-- Witness for C10 on the input `" a , ,b"`: the stored topic `"a"` is a
trimmed nonempty segment. -/
theorem topics_parsing_witness :
    ['a'] ≠ ([] : List Char)
    ∧ (∃ seg ∈ splitComma (" a , ,b".toList), jsTrim seg = ['a'])
    ∧ (∀ c, (['a'] : List Char).head? = some c → isJsWhitespace c = false)
    ∧ (∀ c, (['a'] : List Char).getLast? = some c → isJsWhitespace c = false) :=
  (topics_parsing (" a , ,b".toList)).2 ['a'] (by decide)

end SingleBrief
